import Mathlib

/-!
Verification development for the logistics AI assistant backend
(`backend/app/ai/agent.py`, `backend/app/ai/tools.py`, `backend/app/ai/rag.py`,
`backend/app/routers/ai.py`).  The Python modules are shallowly embedded as
executable Lean definitions: the language-model executor, the database and the
vector store appear as explicit parameters, exceptions are modelled with
`Except`, and the singleton agent state is passed explicitly.
-/

namespace Logistics

/-! ## Conversation data model (agent.py, ConversationBufferMemory) -/

/-- Role of a message turn stored in conversation memory. -/
inductive Role where
  | user
  | assistant
  | tool
deriving DecidableEq

/-- One message turn: role plus content. -/
structure Turn where
  role : Role
  content : String
deriving DecidableEq

/-- One intermediate step of the agent executor: the action taken
(tool name and input) together with the observation string. -/
structure AgentStep where
  tool : String
  tool_input : String
  observation : String
deriving DecidableEq

/-- An entry of the `sources` list built by `LogisticsAIAgent._extract_sources`. -/
structure SourceEntry where
  tool : String
  input : String
  output : String
deriving DecidableEq

/-- `LogisticsAIAgent._extract_sources`: each intermediate step becomes a
source entry whose output is truncated to 200 characters. -/
def extractSources (steps : List AgentStep) : List SourceEntry :=
  steps.map fun s => ⟨s.tool, s.tool_input, s.observation.take 200⟩

/-- The behaviour of `self.executor.ainvoke`, abstracted: given the current
conversation memory and the new input it either returns an output string with
intermediate steps, or raises (modelled as `Except.error`). -/
def Exec : Type :=
  List Turn → String → Except String (String × List AgentStep)

/-- The mutable state of the singleton `LogisticsAIAgent`: one shared
`ConversationBufferMemory`, not keyed by any conversation id. -/
structure AgentState where
  memory : List Turn
deriving DecidableEq

/-- The dictionary returned by `LogisticsAIAgent.chat`.  The success branch
sets `sources` and leaves `error` absent; the except branch sets `error` and
leaves `tokens_used`/`sources` absent. -/
structure ChatDict where
  message : String
  conversation_id : String
  tokens_used : Option Nat
  sources : Option (List SourceEntry)
  error : Option String
deriving DecidableEq

/-- The fixed apology of the except branch of `LogisticsAIAgent.chat`. -/
def chatApology : String :=
  "I apologize, but I encountered an error processing your request. Please try again or rephrase your question."

/-- `LogisticsAIAgent.chat`: run the executor on the shared memory; on success
append the user turn and the assistant turn to the shared memory
(ConversationBufferMemory with `output_key="output"` saves input and output
only) and return the response dictionary; on any exception return the fixed
apology plus the error description, leaving memory unchanged.  The
`conversation_id` argument is only echoed back (defaulting to "new"); it never
selects a memory. -/
def LogisticsAIAgent.chat (exec : Exec) (st : AgentState) (message : String)
    (conversation_id : Option String) : AgentState × ChatDict :=
  match exec st.memory message with
  | .ok (out, steps) =>
      (⟨st.memory ++ [⟨.user, message⟩, ⟨.assistant, out⟩]⟩,
       ⟨out, conversation_id.getD "new", none, some (extractSources steps), none⟩)
  | .error e =>
      (st, ⟨chatApology, conversation_id.getD "new", none, none, some e⟩)

/-- `LogisticsAIAgent.clear_memory`: `self.memory.clear()` empties the single
shared conversation memory. -/
def LogisticsAIAgent.clear_memory (_st : AgentState) : AgentState :=
  ⟨[]⟩

/-! ## HTTP surface (routers/ai.py) -/

/-- The `ChatResponse` pydantic schema (schemas/ai.py): it has no `error`
field, so the error description of the chat dictionary is dropped when the
router builds the response (pydantic ignores extra constructor fields). -/
structure ChatResponse where
  message : String
  conversation_id : String
  tokens_used : Option Nat
  sources : Option (List SourceEntry)
deriving DecidableEq

/-- `ChatResponse(**response)` in `chat_with_ai`: keep the schema fields,
drop everything else (in particular `error`). -/
def ChatResponse.ofDict (d : ChatDict) : ChatResponse :=
  ⟨d.message, d.conversation_id, d.tokens_used, d.sources⟩

/-- `clear_conversation` (routers/ai.py): calls `agent.clear_memory()` on the
process-wide singleton agent, whatever `conversation_id` the path names, and
acknowledges with a message naming that id. -/
def clear_conversation (st : AgentState) (conversation_id : String) :
    AgentState × String :=
  (LogisticsAIAgent.clear_memory st,
   "Conversation " ++ conversation_id ++ " cleared")

/-! ## Orchestration loop (spec §4.2; the AgentExecutor internals are not in
the repository, only its configuration in `LogisticsAIAgent.__init__`) -/

/-- The iteration cap configured on the AgentExecutor (`max_iterations=5`). -/
def max_iterations : Nat := 5

/-- The wall-clock budget configured on the AgentExecutor
(`max_execution_time=30` seconds). -/
def max_execution_time : Nat := 30

/-- One model response inside the orchestration loop: a tool-call request, a
final natural-language answer, an unparsable response, or a model failure. -/
inductive ModelResp where
  | toolCall (name : String) (args : String)
  | final (text : String)
  | parseFail
  | modelError (e : String)

/-- Modelled from the spec: the language model and tool registry as seen by
the orchestration loop (the AgentExecutor body is library code absent from
the repository).  `respond` gives the model response as a function of the
history and the current round-trip count; `toolResult` is the registry result
for a dispatched call; `duration` is the wall-clock seconds consumed by the
n-th model call. -/
structure OrchModel where
  respond : List Turn → Nat → ModelResp
  toolResult : String → String → String
  duration : Nat → Nat

/-- Terminal outcome of one orchestrated `chat` invocation. -/
inductive OrchOutcome where
  | done (text : String)
  | aborted (reason : String)
deriving DecidableEq

/-- Result of the orchestration loop: the outcome, the number of completed
model-to-tool round trips, and the elapsed wall-clock value at which each tool
dispatch was issued. -/
structure OrchTrace where
  outcome : OrchOutcome
  roundTrips : Nat
  dispatchTimes : List Nat
deriving DecidableEq

/-- Modelled from the spec: the Awaiting-Model / Dispatching-Tool loop of
§4.2 with the caps of `LogisticsAIAgent.__init__`.  Each pass makes a model
call (consuming wall-clock time), aborts when the time budget is exceeded,
finishes on a plain text response, aborts on a model failure, retries a
parsing failure at most once (`handle_parsing_errors=True`, abort when the
retry also fails to parse), and otherwise dispatches the requested tool,
appends the tool turn and loops.  `fuel` bounds the remaining iterations. -/
def orchRun (m : OrchModel) :
    Nat → List Turn → Bool → Nat → Nat → List Nat → OrchTrace
  | 0, _, _, rounds, _, ds =>
      ⟨.aborted "iteration limit", rounds, ds⟩
  | fuel + 1, hist, retried, rounds, elapsed, ds =>
      let el := elapsed + m.duration rounds
      if max_execution_time < el then
        ⟨.aborted "time limit", rounds, ds⟩
      else
        match m.respond hist rounds with
        | .final t => ⟨.done t, rounds, ds⟩
        | .modelError e => ⟨.aborted e, rounds, ds⟩
        | .parseFail =>
            if retried then
              ⟨.aborted "parse failure", rounds, ds⟩
            else
              orchRun m fuel (hist ++ [⟨.assistant, "invalid response"⟩])
                true rounds el ds
        | .toolCall name args =>
            orchRun m fuel
              (hist ++ [⟨.assistant, name⟩, ⟨.tool, m.toolResult name args⟩])
              retried (rounds + 1) el (ds ++ [el])

/-- Modelled from the spec: one `chat` invocation of the orchestrator, from
the initial Awaiting-Model state with the new user turn appended. -/
def chatOrch (m : OrchModel) (hist : List Turn) (input : String) : OrchTrace :=
  orchRun m max_iterations (hist ++ [⟨.user, input⟩]) false 0 0 []

/-- A model that requests a tool call on every response. -/
def AlwaysToolModel (m : OrchModel) : Prop :=
  ∀ hist n, ∃ name args, m.respond hist n = .toolCall name args

/-- The loop never completes more round trips than the initial count plus the
available fuel. -/
theorem orchRun_roundTrips_le (m : OrchModel) :
    ∀ fuel hist retried rounds elapsed ds,
      (orchRun m fuel hist retried rounds elapsed ds).roundTrips ≤
        rounds + fuel := by
  intro fuel
  induction fuel with
  | zero => intro hist retried rounds elapsed ds; simp [orchRun]
  | succ n ih =>
      intro hist retried rounds elapsed ds
      simp only [orchRun]
      by_cases htime : max_execution_time < elapsed + m.duration rounds
      · simp [htime]
      · simp only [htime, if_false]
        cases m.respond hist rounds with
        | final t => simp
        | modelError e => simp
        | parseFail =>
            by_cases hr : retried
            · simp [hr]
            · simp only [hr, if_false]
              exact le_trans (ih _ _ _ _ _) (by omega)
        | toolCall name args =>
            exact le_trans (ih _ _ _ _ _) (by omega)

/-- Every tool dispatch recorded by the loop either was already recorded on
entry or happened at an elapsed wall-clock value within the budget. -/
theorem orchRun_dispatch_le (m : OrchModel) :
    ∀ fuel hist retried rounds elapsed ds,
      (∀ t ∈ ds, t ≤ max_execution_time) →
      ∀ t ∈ (orchRun m fuel hist retried rounds elapsed ds).dispatchTimes,
        t ≤ max_execution_time := by
  intro fuel
  induction fuel with
  | zero => intro hist retried rounds elapsed ds hds; simpa [orchRun] using hds
  | succ n ih =>
      intro hist retried rounds elapsed ds hds
      simp only [orchRun]
      by_cases htime : max_execution_time < elapsed + m.duration rounds
      · simpa [htime] using hds
      · simp only [htime, if_false]
        cases m.respond hist rounds with
        | final t => simpa using hds
        | modelError e => simpa using hds
        | parseFail =>
            by_cases hr : retried
            · simpa [hr] using hds
            · simp only [hr, if_false]
              exact ih _ _ _ _ _ hds
        | toolCall name args =>
            refine ih _ _ _ _ _ ?_
            intro t ht
            rcases List.mem_append.1 ht with h | h
            · exact hds t h
            · rcases List.mem_singleton.1 h with rfl
              omega

/-- The number of round trips equals the number of recorded dispatches
(relative to the counts on entry). -/
theorem orchRun_dispatch_count (m : OrchModel) :
    ∀ fuel hist retried rounds elapsed ds,
      (orchRun m fuel hist retried rounds elapsed ds).roundTrips + ds.length =
        (orchRun m fuel hist retried rounds elapsed ds).dispatchTimes.length
          + rounds := by
  intro fuel
  induction fuel with
  | zero => intro hist retried rounds elapsed ds; simp [orchRun]; omega
  | succ n ih =>
      intro hist retried rounds elapsed ds
      simp only [orchRun]
      by_cases htime : max_execution_time < elapsed + m.duration rounds
      · simp [htime]; omega
      · simp only [htime, if_false]
        cases m.respond hist rounds with
        | final t => simp; omega
        | modelError e => simp; omega
        | parseFail =>
            by_cases hr : retried
            · simp [hr]; omega
            · simp only [hr, if_false]
              exact ih _ _ _ _ _
        | toolCall name args =>
            dsimp only
            have h := ih (hist ++ [⟨.assistant, name⟩,
              ⟨.tool, m.toolResult name args⟩]) retried (rounds + 1)
              (elapsed + m.duration rounds) (ds ++ [elapsed + m.duration rounds])
            simp only [List.length_append, List.length_singleton] at h
            omega

/-- A model that always requests a tool call drives the loop into
`aborted`. -/
theorem orchRun_alwaysTool_aborted (m : OrchModel) (hm : AlwaysToolModel m) :
    ∀ fuel hist retried rounds elapsed ds,
      ∃ r, (orchRun m fuel hist retried rounds elapsed ds).outcome =
        .aborted r := by
  intro fuel
  induction fuel with
  | zero =>
      intro hist retried rounds elapsed ds
      exact ⟨"iteration limit", rfl⟩
  | succ n ih =>
      intro hist retried rounds elapsed ds
      simp only [orchRun]
      by_cases htime : max_execution_time < elapsed + m.duration rounds
      · exact ⟨"time limit", by simp [htime]⟩
      · obtain ⟨name, args, hresp⟩ := hm hist rounds
        simp only [htime, if_false, hresp]
        exact ih _ _ _ _ _

/-! ## Tool Registry (tools.py) -/

/-- A row of the `shipments` table, with the columns the tools read.
Datetimes are modelled as integer timestamps, `shipment.status.value` as the
status string. -/
structure ShipmentRec where
  tracking_number : String
  origin : String
  destination : String
  current_location : Option String
  statusValue : String
  estimated_delivery : Option Int
  actual_delivery : Option Int
deriving DecidableEq

/-- A row of the `warehouses` table, with the columns
`find_nearest_warehouse` reads.  The utilization percentage is modelled as a
rational. -/
structure WarehouseRec where
  name : String
  city : String
  state : String
  phone : String
  utilization : ℚ
deriving DecidableEq

/-- The database as the tools see it: each table query either yields the rows
or raises (store unavailable); `now` stands for `datetime.utcnow()`. -/
structure DB where
  shipments : Except String (List ShipmentRec)
  warehouses : Except String (List WarehouseRec)
  now : Int
deriving Inhabited

/-- ASCII lowercase folding (`str.lower()`, and the folding behind SQL
ILIKE): `String.toLower` expressed by mapping over the character list, so
that proofs can evaluate it. -/
def strLower (s : String) : String :=
  String.mk (s.data.map Char.toLower)

/-- ASCII uppercase folding (`str.upper()`): `String.toUpper` expressed by
mapping over the character list. -/
def strUpper (s : String) : String :=
  String.mk (s.data.map Char.toUpper)

/-- SQL `column ILIKE pat` with a pattern of the shape percent-text-percent,
as built by the tools: case-insensitive substring containment. -/
def ilikeContains (column pat : String) : Bool :=
  decide ((strLower pat).data <:+: (strLower column).data)

/-- The shipment lookup of `get_shipment_status` and
`estimate_delivery_time`: filter on the uppercased tracking number, take the
first row. -/
def matchShipmentByTracking (ships : List ShipmentRec)
    (tracking_number : String) : Option ShipmentRec :=
  (ships.filter fun s => s.tracking_number == strUpper tracking_number).head?

/-- The warehouse lookup of `find_nearest_warehouse`: `city ILIKE
percent-location-percent`, limited to 3 rows. -/
def matchWarehouses (whs : List WarehouseRec) (location : String) :
    List WarehouseRec :=
  (whs.filter fun w => ilikeContains w.city location).take 3

/-- The filter chain of `search_shipments`: optional exact status filter,
optional ILIKE origin and destination filters, limited to 10 rows. -/
def matchSearchShipments (ships : List ShipmentRec)
    (status origin destination : Option String) : List ShipmentRec :=
  let q1 : List ShipmentRec := match status with
    | some st => ships.filter fun s => s.statusValue == st
    | none => ships
  let q2 : List ShipmentRec := match origin with
    | some o => q1.filter fun s => ilikeContains s.origin o
    | none => q1
  let q3 : List ShipmentRec := match destination with
    | some d => q2.filter fun s => ilikeContains s.destination d
    | none => q2
  q3.take 10

/-- Abstract rendering of a timestamp (`strftime` in the source); the claims
never inspect the rendered date. -/
def fmtDate (t : Int) : String :=
  t.repr

/-- The try-block of `get_shipment_status`: query the store (which may
raise), then either report the record not found or render its status
line. -/
def get_shipment_status.body (db : DB) (tracking_number : String) :
    Except String String := do
  let ships ← db.shipments
  match matchShipmentByTracking ships tracking_number with
  | none =>
      pure ("Shipment with tracking number " ++ tracking_number ++
        " not found. Please verify the tracking number and try again.")
  | some s =>
      let location := s.current_location.getD "Processing at origin"
      pure ("Shipment " ++ tracking_number ++ ": Status is " ++ s.statusValue ++
        ". Current location: " ++ location ++ ". Origin: " ++ s.origin ++
        ", Destination: " ++ s.destination ++ ".")

/-- The except-branch result of `get_shipment_status`. -/
def get_shipment_status.fallback (tracking_number : String) : String :=
  "Unable to retrieve status for " ++ tracking_number ++ ". Please try again."

/-- `get_shipment_status`: the body with every fault caught and converted to
the descriptive fallback string. -/
def get_shipment_status (db : DB) (tracking_number : String) : String :=
  match get_shipment_status.body db tracking_number with
  | .ok s => s
  | .error _ => get_shipment_status.fallback tracking_number

/-- The try-block of `calculate_shipping_cost`: base rate 10, 2.5 per kg,
distance factor 1.5 when origin and destination differ case-insensitively. -/
def calculate_shipping_cost.body (origin destination : String)
    (weight_kg : ℚ) : Except String String := do
  let base_rate : ℚ := 10
  let per_kg_rate : ℚ := 5 / 2
  let distance_factor : ℚ :=
    if strLower origin ≠ strLower destination then 3 / 2 else 1
  let total_cost := (base_rate + weight_kg * per_kg_rate) * distance_factor
  pure ("Estimated shipping cost from " ++ origin ++ " to " ++ destination ++
    " for " ++ toString weight_kg ++ "kg: $" ++ toString total_cost ++
    " USD. This includes base rate, weight charges, and distance calculation.")

/-- The except-branch result of `calculate_shipping_cost`. -/
def calculate_shipping_cost.fallback : String :=
  "Unable to calculate shipping cost. Please verify the input parameters."

/-- `calculate_shipping_cost` with its catch-all handler. -/
def calculate_shipping_cost (origin destination : String) (weight_kg : ℚ) :
    String :=
  match calculate_shipping_cost.body origin destination weight_kg with
  | .ok s => s
  | .error _ => calculate_shipping_cost.fallback

/-- The try-block of `find_nearest_warehouse`: ILIKE city lookup limited to
3 rows, rendered as a bullet list, or a not-found message. -/
def find_nearest_warehouse.body (db : DB) (location : String) :
    Except String String := do
  let whs ← db.warehouses
  let warehouses := matchWarehouses whs location
  if warehouses.isEmpty then
    pure ("No warehouses found near " ++ location ++
      ". Please try a different location or contact support.")
  else
    let lines := warehouses.foldl (fun acc wh =>
      acc ++ "- " ++ wh.name ++ " in " ++ wh.city ++ ", " ++ wh.state ++
        ": " ++ toString wh.utilization ++ "% utilized, Contact: " ++
        wh.phone ++ "\n") ""
    pure ("Warehouses near " ++ location ++ ":\n" ++ lines)

/-- The except-branch result of `find_nearest_warehouse`. -/
def find_nearest_warehouse.fallback : String :=
  "Unable to find nearby warehouses. Please try again."

/-- `find_nearest_warehouse` with its catch-all handler. -/
def find_nearest_warehouse (db : DB) (location : String) : String :=
  match find_nearest_warehouse.body db location with
  | .ok s => s
  | .error _ => find_nearest_warehouse.fallback

/-- The try-block of `estimate_delivery_time`: look the shipment up by
uppercased tracking number and report the already-delivered date, the stored
estimate, or the default three-day estimate. -/
def estimate_delivery_time.body (db : DB) (tracking_number : String) :
    Except String String := do
  let ships ← db.shipments
  match matchShipmentByTracking ships tracking_number with
  | none => pure ("Shipment " ++ tracking_number ++ " not found.")
  | some s =>
      match s.actual_delivery with
      | some d =>
          pure ("Shipment " ++ tracking_number ++
            " was already delivered on " ++ fmtDate d ++ ".")
      | none =>
          match s.estimated_delivery with
          | some d =>
              let days_remaining := (d - db.now) / 86400
              pure ("Shipment " ++ tracking_number ++
                " is estimated to be delivered on " ++ fmtDate d ++
                " (approximately " ++ days_remaining.repr ++
                " days from now).")
          | none =>
              let est_days : Int := 3
              pure ("Shipment " ++ tracking_number ++
                " is estimated to be delivered by " ++
                fmtDate (db.now + est_days * 86400) ++ " (approximately " ++
                est_days.repr ++ " business days).")

/-- The except-branch result of `estimate_delivery_time`. -/
def estimate_delivery_time.fallback : String :=
  "Unable to estimate delivery time. Please try again."

/-- `estimate_delivery_time` with its catch-all handler. -/
def estimate_delivery_time (db : DB) (tracking_number : String) : String :=
  match estimate_delivery_time.body db tracking_number with
  | .ok s => s
  | .error _ => estimate_delivery_time.fallback

/-- The try-block of `search_shipments`: the optional filter chain limited
to 10 rows, rendered one shipment per line. -/
def search_shipments.body (db : DB)
    (status origin destination : Option String) : Except String String := do
  let ships ← db.shipments
  let shipments := matchSearchShipments ships status origin destination
  if shipments.isEmpty then
    pure "No shipments found matching the criteria."
  else
    let lines := shipments.foldl (fun acc ship =>
      acc ++ "- " ++ ship.tracking_number ++ ": " ++ ship.statusValue ++
        ", " ++ ship.origin ++ " → " ++ ship.destination ++ "\n") ""
    pure ("Found " ++ toString shipments.length ++ " shipment(s):\n" ++ lines)

/-- The except-branch result of `search_shipments`. -/
def search_shipments.fallback : String :=
  "Unable to search shipments. Please try again."

/-- `search_shipments` with its catch-all handler. -/
def search_shipments (db : DB) (status origin destination : Option String) :
    String :=
  match search_shipments.body db status origin destination with
  | .ok s => s
  | .error _ => search_shipments.fallback

/-- A call to one of the five registered tools with its arguments. -/
inductive ToolCall where
  | get_shipment_status (tracking_number : String)
  | calculate_shipping_cost (origin destination : String) (weight_kg : ℚ)
  | find_nearest_warehouse (location : String)
  | estimate_delivery_time (tracking_number : String)
  | search_shipments (status origin destination : Option String)
deriving DecidableEq

/-- The try-block of the called tool, before its catch-all handler. -/
def toolBody (db : DB) : ToolCall → Except String String
  | .get_shipment_status t => get_shipment_status.body db t
  | .calculate_shipping_cost o d w => calculate_shipping_cost.body o d w
  | .find_nearest_warehouse l => find_nearest_warehouse.body db l
  | .estimate_delivery_time t => estimate_delivery_time.body db t
  | .search_shipments st o d => search_shipments.body db st o d

/-- The descriptive string the called tool returns when its body faults. -/
def toolFallback : ToolCall → String
  | .get_shipment_status t => get_shipment_status.fallback t
  | .calculate_shipping_cost _ _ _ => calculate_shipping_cost.fallback
  | .find_nearest_warehouse _ => find_nearest_warehouse.fallback
  | .estimate_delivery_time _ => estimate_delivery_time.fallback
  | .search_shipments _ _ _ => search_shipments.fallback

/-- The Tool Registry boundary: dispatch the call to its handler.  The
result is `Except`-valued so that a raising handler would be visible as
`Except.error`; every handler catches internally, so the dispatch wraps the
handler's string result. -/
def invokeTool (db : DB) : ToolCall → Except String String
  | .get_shipment_status t => .ok (get_shipment_status db t)
  | .calculate_shipping_cost o d w => .ok (calculate_shipping_cost o d w)
  | .find_nearest_warehouse l => .ok (find_nearest_warehouse db l)
  | .estimate_delivery_time t => .ok (estimate_delivery_time db t)
  | .search_shipments st o d => .ok (search_shipments db st o d)

/-! ## Text splitting (rag.py, RecursiveCharacterTextSplitter configuration:
chunk_size 1000, chunk_overlap 200) -/

/-- The `chunk_size=1000` of the splitter configuration in
`_load_documents_to_vector_store`. -/
def chunk_size : Nat := 1000

/-- The `chunk_overlap=200` of the splitter configuration. -/
def chunk_overlap : Nat := 200

/-- Does the pattern match at the head of the text? -/
def matchAt : List Char → List Char → Bool
  | [], _ => true
  | _ :: _, [] => false
  | c :: p, d :: w => c == d && matchAt p w

/-- A matching pattern fits inside the text. -/
theorem matchAt_length :
    ∀ (p w : List Char), matchAt p w = true → p.length ≤ w.length := by
  intro p
  induction p with
  | nil => intro w _; simp
  | cons c p ih =>
      intro w h
      cases w with
      | nil => simp [matchAt] at h
      | cons d rest =>
          simp only [matchAt, Bool.and_eq_true] at h
          have := ih rest h.2
          simp only [List.length_cons]
          omega

/-- End position (the index just past the match) of the last occurrence of
the pattern in the text, where the text starts at position `i`. -/
def lastMatchEndAux (p : List Char) : List Char → Nat → Option Nat
  | [], _ => none
  | d :: rest, i =>
      match lastMatchEndAux p rest (i + 1) with
      | some e => some e
      | none => if matchAt p (d :: rest) then some (i + p.length) else none

/-- End position of the last occurrence of the pattern in the window. -/
def lastMatchEnd (p w : List Char) : Option Nat :=
  lastMatchEndAux p w 0

/-- A found occurrence ends after at least one full pattern and within the
text. -/
theorem lastMatchEndAux_bounds (p : List Char) :
    ∀ (w : List Char) (i e : Nat), lastMatchEndAux p w i = some e →
      i + p.length ≤ e ∧ e ≤ i + w.length := by
  intro w
  induction w with
  | nil => intro i e h; simp [lastMatchEndAux] at h
  | cons d rest ih =>
      intro i e h
      rw [lastMatchEndAux] at h
      cases hrec : lastMatchEndAux p rest (i + 1) with
      | some e2 =>
          rw [hrec] at h
          simp only [Option.some.injEq] at h
          subst h
          have hb := ih (i + 1) e2 hrec
          simp only [List.length_cons]
          omega
      | none =>
          rw [hrec] at h
          by_cases hm : matchAt p (d :: rest) = true
          · simp only [hm, if_true, Option.some.injEq] at h
            subst h
            have := matchAt_length p (d :: rest) hm
            simp only [List.length_cons] at this ⊢
            omega
          · simp [hm] at h

/-- Bounds for `lastMatchEnd`. -/
theorem lastMatchEnd_bounds {p w : List Char} {e : Nat}
    (h : lastMatchEnd p w = some e) : p.length ≤ e ∧ e ≤ w.length := by
  have hb := lastMatchEndAux_bounds p w 0 e h
  omega

/-- Modelled from the spec: the text splitter itself is library code absent
from the repository; per §4.3 a window targets `chunk_size` characters and
is cut preferentially at the last paragraph boundary within it, else the
last line boundary, else the last space, and only when no such boundary
exists at exactly `chunk_size` characters (mid-word). -/
def cutPoint (s : List Char) : Nat :=
  match lastMatchEnd ['\n', '\n'] (s.take chunk_size) with
  | some e => e
  | none =>
      match lastMatchEnd ['\n'] (s.take chunk_size) with
      | some e => e
      | none =>
          match lastMatchEnd [' '] (s.take chunk_size) with
          | some e => e
          | none => chunk_size

/-- The cut always makes progress. -/
theorem cutPoint_pos (s : List Char) : 1 ≤ cutPoint s := by
  unfold cutPoint
  cases h1 : lastMatchEnd ['\n', '\n'] (s.take chunk_size) with
  | some e =>
      dsimp only
      have := (lastMatchEnd_bounds h1).1
      simp only [List.length_cons, List.length_nil] at this
      omega
  | none =>
      dsimp only
      cases h2 : lastMatchEnd ['\n'] (s.take chunk_size) with
      | some e =>
          dsimp only
          have := (lastMatchEnd_bounds h2).1
          simp only [List.length_cons, List.length_nil] at this
          omega
      | none =>
          dsimp only
          cases h3 : lastMatchEnd [' '] (s.take chunk_size) with
          | some e =>
              dsimp only
              have := (lastMatchEnd_bounds h3).1
              simp only [List.length_cons, List.length_nil] at this
              omega
          | none => simp [chunk_size]

/-- The cut never exceeds the target window size. -/
theorem cutPoint_le (s : List Char) : cutPoint s ≤ chunk_size := by
  unfold cutPoint
  cases h1 : lastMatchEnd ['\n', '\n'] (s.take chunk_size) with
  | some e =>
      dsimp only
      have := (lastMatchEnd_bounds h1).2
      simp only [List.length_take] at this
      omega
  | none =>
      dsimp only
      cases h2 : lastMatchEnd ['\n'] (s.take chunk_size) with
      | some e =>
          dsimp only
          have := (lastMatchEnd_bounds h2).2
          simp only [List.length_take] at this
          omega
      | none =>
          dsimp only
          cases h3 : lastMatchEnd [' '] (s.take chunk_size) with
          | some e =>
              dsimp only
              have := (lastMatchEnd_bounds h3).2
              simp only [List.length_take] at this
              omega
          | none => dsimp only; exact Nat.le_refl _

/-- Modelled from the spec: split the text into overlapping windows of
target size `chunk_size` cut at preferred boundaries (`cutPoint`), with a
`chunk_overlap`-character overlap: the next window starts `chunk_overlap`
characters before the cut (clamped to advance at least one character, so the
overlap of a window with the text already covered can be smaller than
`chunk_overlap` after a short boundary-cut window).  Each emitted chunk is
paired with that overlap — the number of its leading characters already
covered by earlier chunks.  `fuel` bounds the recursion; the text length
always suffices. -/
def splitChunksF : Nat → Nat → List Char → List (List Char × Nat)
  | 0, ov, s => [(s, ov)]
  | fuel + 1, ov, s =>
      if s.length ≤ chunk_size then [(s, ov)]
      else
        (s.take (cutPoint s), ov) ::
          splitChunksF fuel
            (max ov (cutPoint s) - max (cutPoint s - chunk_overlap) 1)
            (s.drop (max (cutPoint s - chunk_overlap) 1))

/-- Modelled from the spec: split a document into overlapping boundary-cut
windows, each paired with its overlap with the already covered text. -/
def splitChunks (s : List Char) : List (List Char × Nat) :=
  splitChunksF s.length 0 s

/-- Concatenate a chunk sequence with the overlaps removed: each chunk
contributes its characters past its recorded overlap with the text already
covered by earlier chunks. -/
def reconstruct (cs : List (List Char × Nat)) : List Char :=
  (cs.map fun c => c.1.drop c.2).flatten

/-- Concatenating the chunks with the overlaps removed yields the text
past the initial overlap, for any fuel, any cut choices included. -/
theorem splitChunksF_flatten :
    ∀ (fuel ov : Nat) (s : List Char),
      ((splitChunksF fuel ov s).map fun c => c.1.drop c.2).flatten =
        s.drop ov := by
  intro fuel
  induction fuel with
  | zero => intro ov s; simp [splitChunksF]
  | succ n ih =>
      intro ov s
      rw [splitChunksF]
      by_cases h : s.length ≤ chunk_size
      · simp [h]
      · simp only [h, if_false, List.map_cons, List.flatten_cons]
        rw [ih, List.drop_drop]
        have hpos := cutPoint_pos s
        have hstep : max (cutPoint s - chunk_overlap) 1 ≤
            max ov (cutPoint s) := by omega
        rw [Nat.add_sub_cancel' hstep]
        by_cases hov : ov ≤ cutPoint s
        · rw [Nat.max_eq_right hov, List.drop_take,
            show cutPoint s = ov + (cutPoint s - ov) by omega,
            ← List.drop_drop, Nat.add_sub_cancel_left]
          exact List.take_append_drop _ _
        · rw [Nat.max_eq_left (by omega), List.drop_eq_nil_of_le,
            List.nil_append]
          simp only [List.length_take]
          omega

/-- Round trip: concatenating the overlapping boundary-cut windows of any
text with the overlaps removed restores the text exactly. -/
theorem reconstruct_splitChunks (s : List Char) :
    reconstruct (splitChunks s) = s := by
  have h := splitChunksF_flatten s.length 0 s
  simpa [reconstruct, splitChunks] using h

/-- The splitter always produces at least one chunk. -/
theorem splitChunksF_ne_nil (fuel ov : Nat) (s : List Char) :
    splitChunksF fuel ov s ≠ [] := by
  cases fuel with
  | zero => simp [splitChunksF]
  | succ n =>
      rw [splitChunksF]
      by_cases h : s.length ≤ chunk_size <;> simp [h]

/-- Every chunk of a non-empty text is non-empty. -/
theorem splitChunksF_mem_ne_nil :
    ∀ (fuel ov : Nat) (s : List Char), s ≠ [] →
      ∀ c ∈ splitChunksF fuel ov s, c.1 ≠ [] := by
  intro fuel
  induction fuel with
  | zero =>
      intro ov s hs c hc
      simp only [splitChunksF, List.mem_singleton] at hc
      subst hc; exact hs
  | succ n ih =>
      intro ov s hs c hc
      rw [splitChunksF] at hc
      by_cases h : s.length ≤ chunk_size
      · simp only [h, if_true, List.mem_singleton] at hc
        subst hc; exact hs
      · simp only [h, if_false, List.mem_cons] at hc
        have hpos := cutPoint_pos s
        have hle := cutPoint_le s
        rcases hc with rfl | hc
        · intro hnil
          have hlen := congrArg List.length hnil
          simp only [List.length_take, List.length_nil] at hlen
          simp only [chunk_size] at h hle
          omega
        · refine ih _ _ ?_ _ hc
          intro hnil
          have hlen := congrArg List.length hnil
          simp only [List.length_drop, List.length_nil] at hlen
          simp only [chunk_size] at h hle
          omega

/-! ## Retrieval Subsystem (rag.py, LogisticsRAG) -/

/-- A stored document chunk: page content plus the `source` and `page`
metadata the search result formatting reads. -/
structure Doc where
  content : String
  source : Option String
  page : Option Nat
deriving DecidableEq

/-- The `k=4` configured on the retriever of the `RetrievalQA` chain in
`LogisticsRAG.__init__`. -/
def retriever_k : Nat := 4

/-- Ranking order of the vector index: strictly greater similarity first,
ties broken by index insertion order (the position in the store). -/
def rankRel (sim : String → Doc → Int) (q : String) (a b : Nat × Doc) :
    Prop :=
  sim q b.2 < sim q a.2 ∨ (sim q a.2 = sim q b.2 ∧ a.1 ≤ b.1)

instance (sim : String → Doc → Int) (q : String) :
    DecidableRel (rankRel sim q) := by
  intro a b
  unfold rankRel
  infer_instance

/-- The k nearest chunks by similarity, ties broken by insertion order: sort
the indexed store by the ranking order and take the first k entries. -/
def nearestDocs (sim : String → Doc → Int) (q : String) (k : Nat)
    (docs : List Doc) : List Doc :=
  (((docs.enum).insertionSort (rankRel sim q)).map Prod.snd).take k

/-- The retrieval environment: the vector index contents, the similarity
induced by the embeddings, injectable faults for the vector-store query and
for the QA chain's model call, and the grounded answer the language model
composes from the retrieved chunks. -/
structure RagEnv where
  docs : List Doc
  sim : String → Doc → Int
  simFault : Option String
  qaFault : Option String
  llmAnswer : String → List Doc → String

/-- `self.vector_store.similarity_search(query, k)`: the k nearest chunks,
or a raised fault. -/
def similaritySearchVS (env : RagEnv) (query : String) (k : Nat) :
    Except String (List Doc) :=
  match env.simFault with
  | some e => .error e
  | none => .ok (nearestDocs env.sim query k env.docs)

/-- `self.qa_chain.ainvoke({"query": query})`: retrieve with the fixed
`retriever_k` and compose the grounded answer, or raise. -/
def qaChainInvoke (env : RagEnv) (query : String) :
    Except String (String × List Doc) :=
  match env.qaFault with
  | some e => .error e
  | none =>
      let sources := nearestDocs env.sim query retriever_k env.docs
      .ok (env.llmAnswer query sources, sources)

/-- One entry of the `results` list built by `LogisticsRAG.search`. -/
structure SearchResultEntry where
  content : String
  source : String
  page : Option Nat
deriving DecidableEq

/-- The dictionary returned by `LogisticsRAG.search`. -/
structure SearchResponse where
  query : String
  answer : String
  results : List SearchResultEntry
  error : Option String
deriving DecidableEq

/-- One entry of the list returned by `LogisticsRAG.simple_search`. -/
structure SimpleSearchEntry where
  content : String
  source : String
  relevance_score : Option Int
deriving DecidableEq

/-- The fixed apology of the except branch of `LogisticsRAG.search`. -/
def ragApology : String :=
  "I apologize, but I encountered an error searching the documentation."

/-- Format one retrieved chunk as a `search` result entry
(`doc.metadata.get("source", "unknown")`). -/
def searchEntryOfDoc (d : Doc) : SearchResultEntry :=
  ⟨d.content, d.source.getD "unknown", d.page⟩

/-- Format one retrieved chunk as a `simple_search` entry; the relevance
score is always `none` (Chroma does not return scores by default). -/
def simpleEntryOfDoc (d : Doc) : SimpleSearchEntry :=
  ⟨d.content, d.source.getD "unknown", none⟩

/-- `LogisticsRAG.search`: run a similarity search with the requested
`top_k` (its result is bound to a variable the source never uses), then the
QA chain, and format the chain's source documents; on any fault return the
apology, an empty result list and the error description. -/
def LogisticsRAG.search (env : RagEnv) (query : String) (top_k : Nat) :
    SearchResponse :=
  match (do
      let _docs ← similaritySearchVS env query top_k
      qaChainInvoke env query : Except String (String × List Doc)) with
  | .ok (answer, sources) =>
      ⟨query, answer, sources.map searchEntryOfDoc, none⟩
  | .error e => ⟨query, ragApology, [], some e⟩

/-- `LogisticsRAG.simple_search`: the similarity search with the requested
`top_k`, formatted without answer composition; on any fault return the empty
list. -/
def LogisticsRAG.simple_search (env : RagEnv) (query : String) (top_k : Nat) :
    List SimpleSearchEntry :=
  match similaritySearchVS env query top_k with
  | .ok docs => docs.map simpleEntryOfDoc
  | .error _ => []

/-- `LogisticsRAG._get_sample_documents`: the built-in fallback corpus used
when document loading fails. -/
def _get_sample_documents : List Doc :=
  [⟨"Shipping Policy: Standard shipments take 3-5 business days. \n                Express shipping available for 1-2 day delivery. International shipments require \n                7-14 business days and customs documentation.",
    some "shipping_policy", none⟩,
   ⟨"Warehouse Safety: Always wear protective equipment. \n                Use proper lifting techniques for heavy packages. Report damaged items immediately.",
    some "safety_manual", none⟩]

/-- Retrieved chunks come from the store. -/
theorem mem_nearestDocs {sim : String → Doc → Int} {q : String} {k : Nat}
    {docs : List Doc} {d : Doc} (h : d ∈ nearestDocs sim q k docs) :
    d ∈ docs := by
  have h1 : d ∈ ((docs.enum).insertionSort (rankRel sim q)).map Prod.snd :=
    List.mem_of_mem_take h
  obtain ⟨p, hp, rfl⟩ := List.mem_map.1 h1
  have h2 : p ∈ docs.enum :=
    (List.perm_insertionSort (rankRel sim q) docs.enum).mem_iff.1 hp
  have h3 := List.mem_map_of_mem Prod.snd h2
  rwa [List.enum_map_snd] at h3

/-- The number of retrieved chunks is the requested count capped by the store
size. -/
theorem length_nearestDocs (sim : String → Doc → Int) (q : String) (k : Nat)
    (docs : List Doc) :
    (nearestDocs sim q k docs).length = min k docs.length := by
  simp [nearestDocs, List.length_take,
    List.length_insertionSort, List.enum_length]

/-! ## Ingestion (rag.py, _load_documents_to_vector_store) -/

/-- The sample documentation text written by
`LogisticsRAG._create_sample_documents`. -/
def sample_content : String :=
  "\n# Logistics Operations Manual\n\n## Shipment Handling Procedures\n\n" ++
  "### Standard Shipping\n" ++
  "- Packages under 25kg can be shipped via standard ground service\n" ++
  "- Estimated delivery time: 3-5 business days\n" ++
  "- Cost: $10 base + $2.50 per kg\n\n" ++
  "### Express Shipping\n" ++
  "- Available for urgent deliveries\n" ++
  "- Packages delivered within 1-2 business days\n" ++
  "- Cost: $25 base + $5 per kg\n\n" ++
  "### International Shipping\n" ++
  "- Requires customs documentation\n" ++
  "- Estimated delivery: 7-14 business days\n" ++
  "- Additional fees apply based on destination\n\n" ++
  "## Warehouse Operations\n\n" ++
  "### Safety Procedures\n" ++
  "1. Always wear safety equipment in warehouse areas\n" ++
  "2. Follow proper lifting techniques for packages over 10kg\n" ++
  "3. Report any damaged items immediately\n\n" ++
  "### Storage Guidelines\n" ++
  "- Fragile items must be marked clearly\n" ++
  "- Hazardous materials require special storage\n" ++
  "- Maximum stack height: 3 meters\n\n" ++
  "## Customer Service\n\n" ++
  "### Tracking Issues\n" ++
  "If a customer cannot track their shipment:\n" ++
  "1. Verify tracking number format\n" ++
  "2. Check system for status updates\n" ++
  "3. Contact warehouse if no updates for 48+ hours\n\n" ++
  "### Damaged Packages\n" ++
  "1. Document damage with photos\n" ++
  "2. File insurance claim within 24 hours\n" ++
  "3. Arrange replacement shipment\n\n" ++
  "### Delivery Delays\n" ++
  "Common causes:\n" ++
  "- Weather conditions\n" ++
  "- Traffic and road closures\n" ++
  "- Customs clearance (international)\n" ++
  "- Address verification issues\n\n" ++
  "## Emergency Procedures\n\n" ++
  "### Lost Shipments\n" ++
  "1. Search warehouse and transit records\n" ++
  "2. Contact last known location\n" ++
  "3. File incident report\n" ++
  "4. Initiate investigation within 48 hours\n\n" ++
  "### Hazardous Spills\n" ++
  "1. Evacuate immediate area\n" ++
  "2. Contact emergency services\n" ++
  "3. Follow Material Safety Data Sheet protocols\n"

/-- The state of the configured documents directory when the Retrieval
Subsystem starts: absent, present but unreadable (the directory loaders
raise), or present with the given loadable documents (possibly none). -/
inductive DirState where
  | absent
  | unreadable
  | present (files : List Doc)
deriving DecidableEq

/-- `_create_sample_documents`: create the directory and write the sample
operations manual into it, so the loaders then find exactly that file. -/
def _create_sample_documents : DirState :=
  .present [⟨sample_content, some "docs/operations_manual.txt", none⟩]

/-- The `DirectoryLoader` passes over the directory: an unreadable directory
raises, an existing directory (even an empty one) yields its loadable
documents without raising. -/
def loadDirectory : DirState → Except String (List Doc)
  | .absent => .ok []
  | .unreadable => .error "Error loading documents"
  | .present fs => .ok fs

/-- Split one loaded document into chunks, keeping its metadata.  Stored
chunks carry their full overlapping text; the overlap bookkeeping of
`splitChunks` is not part of the stored chunk. -/
def splitDoc (d : Doc) : List Doc :=
  (splitChunks d.content.toList).map fun c => ⟨String.mk c.1, d.source, d.page⟩

/-- `text_splitter.split_documents`: split every loaded document. -/
def split_documents (docs : List Doc) : List Doc :=
  (docs.map splitDoc).flatten

/-- The vector index built at ingestion time. -/
structure VectorStore where
  docs : List Doc
deriving DecidableEq

/-- `_load_documents_to_vector_store`: if the directory does not exist,
create the sample documents first; then load the directory, falling back to
`_get_sample_documents` when loading raises; split into chunks and build the
index from the splits. -/
def _load_documents_to_vector_store (dir : DirState) : VectorStore :=
  let dir1 : DirState :=
    match dir with
    | .absent => _create_sample_documents
    | d => d
  let documents : List Doc :=
    match loadDirectory dir1 with
    | .ok ds => ds
    | .error _ => _get_sample_documents
  ⟨split_documents documents⟩

/-- Build a retrieval environment over an ingested index. -/
def envOfStore (vs : VectorStore) (sim : String → Doc → Int)
    (llm : String → List Doc → String) : RagEnv :=
  ⟨vs.docs, sim, none, none, llm⟩

/-! ## Claims -/

/-- An executor whose answer is the length of the conversation memory it was
given: it makes the dependence of responses on the shared memory
observable. -/
def echoExec : Exec :=
  fun hist _ => .ok (Nat.repr hist.length, [])

/-- The singleton agent state after session B's first chat message. -/
def c1StateAfterB : AgentState :=
  (LogisticsAIAgent.chat echoExec ⟨[]⟩ "m1" (some "B")).1

/-- C1 is false on the code: the singleton agent keeps one shared
`ConversationBufferMemory`, so clearing session A's conversation changes the
response session B receives for its next message — sessions A and B share
mutable conversation state. -/
theorem c1_counterexample :
    ("A" : String) ≠ "B" ∧
    (LogisticsAIAgent.chat echoExec
        (clear_conversation c1StateAfterB "A").1 "m2" (some "B")).2.message ≠
      (LogisticsAIAgent.chat echoExec c1StateAfterB "m2"
        (some "B")).2.message := by
  decide

/-- C1 (amended): there is no per-session state at all.  Chat reads and
writes one process-wide memory regardless of the conversation id (the
resulting state and response text are independent of the id), and
`clear_conversation` empties that shared memory for every session. -/
theorem c1_amended_shared_memory (exec : Exec) (st : AgentState)
    (msg : String) (sid1 sid2 : Option String) (cid : String) :
    (LogisticsAIAgent.chat exec st msg sid1).1 =
      (LogisticsAIAgent.chat exec st msg sid2).1 ∧
    (LogisticsAIAgent.chat exec st msg sid1).2.message =
      (LogisticsAIAgent.chat exec st msg sid2).2.message ∧
    (clear_conversation st cid).1.memory = [] := by
  unfold LogisticsAIAgent.chat clear_conversation LogisticsAIAgent.clear_memory
  cases exec st.memory msg with
  | ok v => cases v; simp
  | error e => simp

/-- A model that always issues the same tool call, never answers, and takes
no measurable time. -/
def alwaysToolM : OrchModel :=
  ⟨fun _ _ => .toolCall "search_shipments" "{}", fun _ _ => "result",
   fun _ => 0⟩

/-- C2: the orchestration loop never completes more than `max_iterations = 5`
model-to-tool round trips, every tool dispatch is issued within the
30-second budget, and a model that requests a tool call on every response is
forced into the Aborted outcome (so round trip 6 never completes). -/
theorem c2_round_trip_cap (m : OrchModel) (hist : List Turn)
    (input : String) :
    (chatOrch m hist input).roundTrips ≤ max_iterations ∧
    (chatOrch m hist input).dispatchTimes.length =
      (chatOrch m hist input).roundTrips ∧
    (∀ t ∈ (chatOrch m hist input).dispatchTimes,
      t ≤ max_execution_time) ∧
    (AlwaysToolModel m →
      ∃ r, (chatOrch m hist input).outcome = .aborted r) := by
  refine ⟨?_, ?_, ?_, ?_⟩
  · have h := orchRun_roundTrips_le m max_iterations
      (hist ++ [⟨.user, input⟩]) false 0 0 []
    simpa [chatOrch] using h
  · have h := orchRun_dispatch_count m max_iterations
      (hist ++ [⟨.user, input⟩]) false 0 0 []
    simp only [List.length_nil] at h
    simpa [chatOrch] using h.symm
  · intro t ht
    simp only [chatOrch] at ht
    exact orchRun_dispatch_le m max_iterations (hist ++ [⟨.user, input⟩])
      false 0 0 [] (by simp) t ht
  · intro hm
    exact orchRun_alwaysTool_aborted m hm max_iterations
      (hist ++ [⟨.user, input⟩]) false 0 0 []

/-- C2 witness: a concrete always-tool-calling model hits the cap and is
aborted. -/
theorem c2_round_trip_cap_witness :
    (chatOrch alwaysToolM [] "track my parcel").roundTrips ≤
      max_iterations ∧
    ∃ r, (chatOrch alwaysToolM [] "track my parcel").outcome = .aborted r :=
  ⟨(c2_round_trip_cap alwaysToolM [] "track my parcel").1,
   (c2_round_trip_cap alwaysToolM [] "track my parcel").2.2.2
     (fun _ _ => ⟨"search_shipments", "{}", rfl⟩)⟩

/-- C3: for every registered tool and any arguments and store state, the
registry invocation returns an `ok` string; whenever the tool's try-block
faults, the result is the tool's descriptive fallback string rather than a
propagated exception. -/
theorem c3_tools_never_raise (db : DB) (c : ToolCall) :
    (∃ s, invokeTool db c = .ok s) ∧
    (∀ e, toolBody db c = .error e →
      invokeTool db c = .ok (toolFallback c)) := by
  constructor
  · cases c <;> exact ⟨_, rfl⟩
  · intro e he
    cases c with
    | get_shipment_status t =>
        simp only [toolBody] at he
        simp [invokeTool, get_shipment_status, he, toolFallback]
    | calculate_shipping_cost o d w =>
        simp only [toolBody, calculate_shipping_cost.body, Except.pure] at he
        exact Except.noConfusion he
    | find_nearest_warehouse l =>
        simp only [toolBody] at he
        simp [invokeTool, find_nearest_warehouse, he, toolFallback]
    | estimate_delivery_time t =>
        simp only [toolBody] at he
        simp [invokeTool, estimate_delivery_time, he, toolFallback]
    | search_shipments st o d =>
        simp only [toolBody] at he
        simp [invokeTool, search_shipments, he, toolFallback]

/-- C3 witness: with the whole store unavailable, the status tool still
answers with its fallback string. -/
theorem c3_tools_never_raise_witness :
    invokeTool ⟨.error "store unavailable", .error "store unavailable", 0⟩
        (.get_shipment_status "TRACK123456") =
      .ok (toolFallback (.get_shipment_status "TRACK123456")) :=
  (c3_tools_never_raise
    ⟨.error "store unavailable", .error "store unavailable", 0⟩
    (.get_shipment_status "TRACK123456")).2 "store unavailable" rfl

/-- C4: whenever the executor faults, `chat` returns the fixed apology plus
the internal error description instead of re-raising, the shared memory is
untouched, and the `ChatResponse` the HTTP layer builds from it is a
constant that carries no fault detail. -/
theorem c4_abort_returns_apology (exec : Exec) (st : AgentState)
    (msg : String) (sid : Option String) (e : String)
    (h : exec st.memory msg = .error e) :
    LogisticsAIAgent.chat exec st msg sid =
      (st, ⟨chatApology, sid.getD "new", none, none, some e⟩) ∧
    ChatResponse.ofDict (LogisticsAIAgent.chat exec st msg sid).2 =
      ⟨chatApology, sid.getD "new", none, none⟩ := by
  constructor <;> simp [LogisticsAIAgent.chat, ChatResponse.ofDict, h]

/-- C4 witness: a concrete failing executor produces exactly the apology
response. -/
theorem c4_abort_returns_apology_witness :
    LogisticsAIAgent.chat (fun _ _ => .error "rate limited") ⟨[]⟩
        "hello" (some "s1") =
      (⟨[]⟩, ⟨chatApology, "s1", none, none, some "rate limited"⟩) ∧
    ChatResponse.ofDict (LogisticsAIAgent.chat
        (fun _ _ => .error "rate limited") ⟨[]⟩ "hello" (some "s1")).2 =
      ⟨chatApology, "s1", none, none⟩ :=
  c4_abort_returns_apology (fun _ _ => .error "rate limited") ⟨[]⟩
    "hello" (some "s1") "rate limited" rfl

/-- A non-empty character list makes a non-empty string. -/
theorem mk_ne_empty {cs : List Char} (h : cs ≠ []) : String.mk cs ≠ "" :=
  fun he => h (congrArg String.data he)

/-- A non-empty string has a non-empty character list. -/
theorem toList_ne_nil {s : String} (h : s ≠ "") : s.toList ≠ [] := by
  cases s with
  | mk data =>
      intro he
      apply h
      simp only [String.toList, String.data] at he
      subst he
      rfl

/-- Behaviour of `search` and `simple_search` when no underlying call
faults: `search` formats the QA chain's sources, which are retrieved with
the fixed `retriever_k`, while `simple_search` formats the similarity search
for the requested `top_k`. -/
theorem search_no_fault_eq (env : RagEnv) (q : String) (k : Nat)
    (h1 : env.simFault = none) (h2 : env.qaFault = none) :
    LogisticsRAG.search env q k =
      ⟨q, env.llmAnswer q (nearestDocs env.sim q retriever_k env.docs),
       (nearestDocs env.sim q retriever_k env.docs).map searchEntryOfDoc,
       none⟩ ∧
    LogisticsRAG.simple_search env q k =
      (nearestDocs env.sim q k env.docs).map simpleEntryOfDoc := by
  constructor
  · simp [LogisticsRAG.search, similaritySearchVS, qaChainInvoke, h1, h2,
      Bind.bind, Except.bind]
  · simp [LogisticsRAG.simple_search, similaritySearchVS, h1]

/-- Every chunk of the built-in fallback corpus has non-empty text and one
of the two sample source identifiers. -/
theorem mem_fallback_chunks {d : Doc}
    (h : d ∈ split_documents _get_sample_documents) :
    d.content ≠ "" ∧
    (d.source = some "shipping_policy" ∨ d.source = some "safety_manual") := by
  simp only [split_documents, _get_sample_documents, List.map_cons,
    List.map_nil, List.flatten_cons, List.flatten_nil, List.append_nil,
    List.mem_append] at h
  rcases h with h | h <;>
  · simp only [splitDoc, List.mem_map] at h
    obtain ⟨c, hc, rfl⟩ := h
    refine ⟨mk_ne_empty ?_, by simp⟩
    exact splitChunksF_mem_ne_nil _ _ _ (toList_ne_nil (by decide)) _ hc

/-- The retrieval environment over the built-in fallback corpus. -/
def fallbackEnv (sim : String → Doc → Int)
    (llm : String → List Doc → String) : RagEnv :=
  ⟨split_documents _get_sample_documents, sim, none, none, llm⟩

/-- A concrete five-document index with pairwise distinct similarity
scores. -/
def env5 : RagEnv :=
  ⟨[⟨"a", some "s0", none⟩, ⟨"bb", some "s1", none⟩, ⟨"ccc", some "s2", none⟩,
    ⟨"dddd", some "s3", none⟩, ⟨"eeeee", some "s4", none⟩],
   fun _ d => (d.content.length : Int), none, none, fun _ _ => "composed"⟩

set_option maxRecDepth 10000 in
/-- C5 is false on the code: `search(query, k)` does not return the k
nearest chunks as its results list.  On a five-document store with k = 1 and
no fault, the results list has four entries (the QA chain's retriever is
fixed at k = 4; the `similarity_search` result for the requested k is bound
to an unused variable). -/
theorem c5_counterexample :
    (LogisticsRAG.search env5 "q" 1).error = none ∧
    (LogisticsRAG.search env5 "q" 1).results.length = 4 ∧
    (nearestDocs env5.sim "q" 1 env5.docs).length = 1 ∧
    (LogisticsRAG.search env5 "q" 1).results ≠
      (nearestDocs env5.sim "q" 1 env5.docs).map searchEntryOfDoc := by
  decide

set_option maxRecDepth 10000 in
/-- C5 (amended): in the no-fault case `search(query, k)` returns as its
results list the 4 nearest chunks — the retriever's configured count,
ignoring the requested k — together with the answer composed from those
same chunks, while `simple_search(query, k)` returns the requested k nearest
chunks with no answer or score populated; `search("safety procedures", 4)`
against the fallback corpus returns at most 4 chunks, each with non-empty
text and a non-empty source identifier, and `simple_search` returns those
same retrieved chunks. -/
theorem c5_amended (env : RagEnv) (q : String) (k : Nat)
    (sim : String → Doc → Int) (llm : String → List Doc → String)
    (h1 : env.simFault = none) (h2 : env.qaFault = none) :
    (LogisticsRAG.search env q k =
      ⟨q, env.llmAnswer q (nearestDocs env.sim q retriever_k env.docs),
       (nearestDocs env.sim q retriever_k env.docs).map searchEntryOfDoc,
       none⟩ ∧
     LogisticsRAG.simple_search env q k =
       (nearestDocs env.sim q k env.docs).map simpleEntryOfDoc) ∧
    ((LogisticsRAG.search (fallbackEnv sim llm)
        "safety procedures" 4).results.length ≤ 4 ∧
     (∀ r ∈ (LogisticsRAG.search (fallbackEnv sim llm)
        "safety procedures" 4).results, r.content ≠ "" ∧ r.source ≠ "") ∧
     LogisticsRAG.simple_search (fallbackEnv sim llm)
        "safety procedures" 4 =
       (LogisticsRAG.search (fallbackEnv sim llm)
          "safety procedures" 4).results.map
         (fun r => ⟨r.content, r.source, none⟩)) := by
  refine ⟨search_no_fault_eq env q k h1 h2, ?_, ?_, ?_⟩
  · rw [(search_no_fault_eq (fallbackEnv sim llm) "safety procedures" 4
      rfl rfl).1]
    simp only [List.length_map, length_nearestDocs]
    exact min_le_left _ _
  · intro r hr
    rw [(search_no_fault_eq (fallbackEnv sim llm) "safety procedures" 4
      rfl rfl).1] at hr
    simp only [List.mem_map] at hr
    obtain ⟨d, hd, rfl⟩ := hr
    have hmem := mem_fallback_chunks (mem_nearestDocs hd)
    refine ⟨hmem.1, ?_⟩
    rcases hmem.2 with hs | hs <;>
      simp [searchEntryOfDoc, hs]
  · rw [(search_no_fault_eq (fallbackEnv sim llm) "safety procedures" 4
      rfl rfl).1,
      (search_no_fault_eq (fallbackEnv sim llm) "safety procedures" 4
      rfl rfl).2]
    simp only [List.map_map]
    rfl

/-- C5 witness: the amended behaviour at a concrete no-fault index. -/
theorem c5_amended_witness :
    LogisticsRAG.search env5 "q" 1 =
      ⟨"q", env5.llmAnswer "q" (nearestDocs env5.sim "q" retriever_k
         env5.docs),
       (nearestDocs env5.sim "q" retriever_k env5.docs).map searchEntryOfDoc,
       none⟩ ∧
    LogisticsRAG.simple_search env5 "q" 1 =
      (nearestDocs env5.sim "q" 1 env5.docs).map simpleEntryOfDoc :=
  (c5_amended env5 "q" 1 (fun _ _ => 0) (fun _ _ => "a") rfl rfl).1

/-- C6: clearing a conversation and then immediately chatting yields a
memory holding exactly the one user turn of that call followed by the
assistant turn the call generated — no residual history survives the
clear. -/
theorem c6_clear_then_chat (exec : Exec) (st : AgentState) (cid : String)
    (sid : Option String) (msg out : String) (steps : List AgentStep)
    (h : exec [] msg = .ok (out, steps)) :
    (LogisticsAIAgent.chat exec (clear_conversation st cid).1 msg
        sid).1.memory = [⟨.user, msg⟩, ⟨.assistant, out⟩] ∧
    ((LogisticsAIAgent.chat exec (clear_conversation st cid).1 msg
        sid).1.memory.filter
      (fun t => decide (t.role = .user))).length = 1 := by
  have hmem : (LogisticsAIAgent.chat exec (clear_conversation st cid).1 msg
      sid).1.memory = [⟨.user, msg⟩, ⟨.assistant, out⟩] := by
    simp [clear_conversation, LogisticsAIAgent.clear_memory,
      LogisticsAIAgent.chat, h]
  refine ⟨hmem, ?_⟩
  rw [hmem]
  rfl

/-- C6 witness: a concrete stale history is fully discarded by the clear. -/
theorem c6_clear_then_chat_witness :
    (LogisticsAIAgent.chat (fun _ _ => .ok ("fresh reply", []))
        (clear_conversation
          ⟨[⟨.user, "old"⟩, ⟨.assistant, "stale"⟩]⟩ "c1").1
        "new question" (some "c1")).1.memory =
      [⟨.user, "new question"⟩, ⟨.assistant, "fresh reply"⟩] :=
  (c6_clear_then_chat (fun _ _ => .ok ("fresh reply", []))
    ⟨[⟨.user, "old"⟩, ⟨.assistant, "stale"⟩]⟩ "c1" (some "c1")
    "new question" "fresh reply" [] rfl).1

/-- Splitting one document always yields at least one chunk. -/
theorem splitDoc_ne_nil (d : Doc) : splitDoc d ≠ [] := by
  unfold splitDoc splitChunks
  intro h
  exact splitChunksF_ne_nil _ _ _ (List.map_eq_nil_iff.1 h)

/-- Splitting a non-empty document list yields a non-empty chunk list. -/
theorem split_documents_cons_ne_nil (d : Doc) (ds : List Doc) :
    split_documents (d :: ds) ≠ [] := by
  simp only [split_documents, List.map_cons, List.flatten_cons]
  intro h
  exact splitDoc_ne_nil d (List.append_eq_nil.1 h).1

/-- A similarity search with a positive k over a non-empty, non-faulting
index returns at least one candidate. -/
theorem simple_search_ne_nil (env : RagEnv) (q : String) (k : Nat)
    (h1 : env.simFault = none) (hk : 1 ≤ k) (hd : env.docs ≠ []) :
    LogisticsRAG.simple_search env q k ≠ [] := by
  simp only [LogisticsRAG.simple_search, similaritySearchVS, h1]
  intro hnil
  have hlen := congrArg List.length hnil
  simp only [List.length_map, length_nearestDocs, List.length_nil] at hlen
  rcases Nat.min_eq_zero_iff.1 hlen with h0 | h0
  · omega
  · exact hd (List.length_eq_zero.1 h0)

/-- C7 is false on the code for an existing empty directory: the directory
loaders return no documents without raising, so neither fallback triggers
and the resulting vector index is empty — a subsequent search has no
candidates. -/
theorem c7_counterexample :
    (_load_documents_to_vector_store (.present [])).docs = [] ∧
    LogisticsRAG.simple_search
      (envOfStore (_load_documents_to_vector_store (.present []))
        (fun _ _ => 0) (fun _ _ => "answer")) "safety procedures" 4 = [] := by
  constructor <;> rfl

/-- C7 (amended): if the configured documents directory is absent or
unreadable, initialization still produces a non-empty index (the created
sample manual, respectively the built-in fallback corpus), and any search
with a positive k then has candidates; an existing but empty directory is
not protected. -/
theorem c7_amended (sim : String → Doc → Int)
    (llm : String → List Doc → String) (q : String) (k : Nat)
    (hk : 1 ≤ k) :
    (_load_documents_to_vector_store .absent).docs ≠ [] ∧
    (_load_documents_to_vector_store .unreadable).docs ≠ [] ∧
    LogisticsRAG.simple_search
      (envOfStore (_load_documents_to_vector_store .absent) sim llm)
      q k ≠ [] ∧
    LogisticsRAG.simple_search
      (envOfStore (_load_documents_to_vector_store .unreadable) sim llm)
      q k ≠ [] := by
  have habs : (_load_documents_to_vector_store .absent).docs ≠ [] := by
    show split_documents _ ≠ []
    exact split_documents_cons_ne_nil _ _
  have hunr : (_load_documents_to_vector_store .unreadable).docs ≠ [] := by
    show split_documents _ ≠ []
    exact split_documents_cons_ne_nil _ _
  exact ⟨habs, hunr,
    simple_search_ne_nil _ q k rfl hk habs,
    simple_search_ne_nil _ q k rfl hk hunr⟩

/-- C7 witness: the amended guarantee at a concrete similarity and k. -/
theorem c7_amended_witness :
    (1 : Nat) ≤ 1 ∧
    LogisticsRAG.simple_search
      (envOfStore (_load_documents_to_vector_store .absent)
        (fun _ _ => 0) (fun _ _ => "answer")) "safety procedures" 1 ≠ [] :=
  ⟨by decide,
   (c7_amended (fun _ _ => 0) (fun _ _ => "answer") "safety procedures" 1
     (by decide)).2.2.1⟩

/-- C8: splitting any 2400-character document into overlapping windows of
target size 1000 with 200-character overlap — windows cut preferentially at
paragraph, then line, then space boundaries, mid-word only when no such
boundary exists in the window — is lossless: concatenating the chunks with
each chunk's overlap removed restores the document exactly. -/
theorem c8_split_round_trip (doc : List Char) (h : doc.length = 2400) :
    reconstruct (splitChunks doc) = doc :=
  reconstruct_splitChunks doc

/-- C8 witness: the round trip at a concrete 2400-character document. -/
theorem c8_split_round_trip_witness :
    (List.replicate 2400 'a').length = 2400 ∧
    reconstruct (splitChunks (List.replicate 2400 'a')) =
      List.replicate 2400 'a' :=
  ⟨List.length_replicate 2400 'a',
   c8_split_round_trip (List.replicate 2400 'a')
     (List.length_replicate 2400 'a')⟩

/-- Two strings that differ only in letter case fold to the same lowercase
and the same uppercase string. -/
def sameUpToCase (a b : String) : Prop :=
  strLower a = strLower b ∧ strUpper a = strUpper b

instance (a b : String) : Decidable (sameUpToCase a b) := by
  unfold sameUpToCase
  infer_instance

/-- C9: the store lookups of the tools are case-insensitive — arguments
differing only in letter case select the same shipment by tracking number,
the same warehouses by city, and the same shipments by origin/destination
substring. -/
theorem c9_case_insensitive_lookups (ships : List ShipmentRec)
    (whs : List WarehouseRec) (t1 t2 l1 l2 o1 o2 d1 d2 : String)
    (status : Option String)
    (ht : sameUpToCase t1 t2) (hl : sameUpToCase l1 l2)
    (ho : sameUpToCase o1 o2) (hd : sameUpToCase d1 d2) :
    matchShipmentByTracking ships t1 = matchShipmentByTracking ships t2 ∧
    matchWarehouses whs l1 = matchWarehouses whs l2 ∧
    matchSearchShipments ships status (some o1) (some d1) =
      matchSearchShipments ships status (some o2) (some d2) := by
  obtain ⟨htl, htu⟩ := ht
  obtain ⟨hll, hlu⟩ := hl
  obtain ⟨hol, hou⟩ := ho
  obtain ⟨hdl, hdu⟩ := hd
  refine ⟨?_, ?_, ?_⟩
  · unfold matchShipmentByTracking
    simp only [htu]
  · unfold matchWarehouses ilikeContains
    simp only [hll]
  · unfold matchSearchShipments ilikeContains
    simp only [hol, hdl]

/-- C9 witness: concrete case-variant arguments select the same records. -/
theorem c9_case_insensitive_lookups_witness :
    sameUpToCase "track123456" "TRACK123456" ∧
    matchShipmentByTracking
        [⟨"TRACK123456", "New York", "Los Angeles", none, "pending",
          none, none⟩] "track123456" =
      matchShipmentByTracking
        [⟨"TRACK123456", "New York", "Los Angeles", none, "pending",
          none, none⟩] "TRACK123456" ∧
    matchWarehouses [⟨"WH Central", "Chicago", "IL", "555-0100", 10⟩]
        "chicago" =
      matchWarehouses [⟨"WH Central", "Chicago", "IL", "555-0100", 10⟩]
        "CHICAGO" :=
  ⟨by decide,
   (c9_case_insensitive_lookups
     [⟨"TRACK123456", "New York", "Los Angeles", none, "pending",
       none, none⟩]
     [⟨"WH Central", "Chicago", "IL", "555-0100", 10⟩]
     "track123456" "TRACK123456" "chicago" "CHICAGO"
     "new york" "NEW YORK" "los angeles" "LOS ANGELES" none
     (by decide) (by decide) (by decide) (by decide)).1,
   (c9_case_insensitive_lookups
     [⟨"TRACK123456", "New York", "Los Angeles", none, "pending",
       none, none⟩]
     [⟨"WH Central", "Chicago", "IL", "555-0100", 10⟩]
     "track123456" "TRACK123456" "chicago" "CHICAGO"
     "new york" "NEW YORK" "los angeles" "LOS ANGELES" none
     (by decide) (by decide) (by decide) (by decide)).2.1⟩

/-- C10: the retrieval operations convert every underlying fault instead of
propagating it — a vector-store fault makes `search` return the fixed
apology with an empty results list and the error description while
`simple_search` returns the empty list, and a QA-chain fault makes `search`
return the same apology shape. -/
theorem c10_retrieval_never_raises (env : RagEnv) (q : String) (k : Nat) :
    (∀ e, env.simFault = some e →
      LogisticsRAG.search env q k = ⟨q, ragApology, [], some e⟩ ∧
      LogisticsRAG.simple_search env q k = []) ∧
    (env.simFault = none → ∀ e, env.qaFault = some e →
      LogisticsRAG.search env q k = ⟨q, ragApology, [], some e⟩) := by
  constructor
  · intro e he
    constructor
    · simp [LogisticsRAG.search, similaritySearchVS, he, Bind.bind,
        Except.bind]
    · simp [LogisticsRAG.simple_search, similaritySearchVS, he]
  · intro hn e he
    simp [LogisticsRAG.search, similaritySearchVS, qaChainInvoke, hn, he,
      Bind.bind, Except.bind]

/-- C10 witness: a concrete vector-store fault is converted, not raised. -/
theorem c10_retrieval_never_raises_witness :
    LogisticsRAG.search
        ⟨[], fun _ _ => 0, some "vector store down", none, fun _ _ => "a"⟩
        "q" 5 =
      ⟨"q", ragApology, [], some "vector store down"⟩ ∧
    LogisticsRAG.simple_search
        ⟨[], fun _ _ => 0, some "vector store down", none, fun _ _ => "a"⟩
        "q" 5 = [] :=
  (c10_retrieval_never_raises
    ⟨[], fun _ _ => 0, some "vector store down", none, fun _ _ => "a"⟩
    "q" 5).1 "vector store down" rfl

end Logistics
